import Mathlib

/-!
# Verification of the `words_tutor` vocabulary drill tool

A shallow embedding of `src/main.py` (module `main`): the answer
normalisation, the `WTItem` / `WordsTutor` data model, `get_item` with its
comeback-reset policy, the private update helpers, the interactive drill
loop of `WordsTutor.run`, and the retry loop of `save_vocabulary`.

Python strings are modelled as lists of Unicode code points (`PyStr`);
machine behaviour relevant to the claims (dict truthiness, `.get` returning
`None`, `str()` of `None` / `nan`, exceptions by kind) is made explicit.
The module `constants` is not part of `src/`; its field-name constants are
represented structurally, and `COMING_BACK_TIME` (the comeback threshold in
days, per the spec) is a parameter of the configuration.
-/

/-- A Python string, as its list of Unicode code points. -/
abbrev PyStr := List Nat

/-- Code points of the string `-1`, the quit token. -/
def quitTok : PyStr := [45, 49]

/-- Code points of the string `+`, the bonus-correction token. -/
def plusTok : PyStr := [43]

/-- Whitespace test used by `str.strip()` (ASCII whitespace; `main.py` only
ever strips user input read from stdin). -/
def isPySpace (n : Nat) : Bool :=
  decide (n = 32 ∨ n = 9 ∨ n = 10 ∨ n = 13 ∨ n = 11 ∨ n = 12)

/-- `str.lower()` on one code point, on the alphabets the tool handles:
ASCII letters and the basic Cyrillic block (`А`..`Я` is 1040..1071,
`Ё` is 1025 with lower case `ё` = 1105). -/
def pyLowerCp (n : Nat) : Nat :=
  if 65 ≤ n ∧ n ≤ 90 then n + 32
  else if 1040 ≤ n ∧ n ≤ 1071 then n + 32
  else if n = 1025 then 1105
  else n

/-- The `.replace('ё', 'е')` step of `process_answer` on one code point
(`ё` = 1105, `е` = 1077); a one-character pattern replaces every
occurrence, i.e. acts pointwise. -/
def foldYo (n : Nat) : Nat :=
  if n = 1105 then 1077 else n

/-- `str.strip()`: drop whitespace from both ends. -/
def pyStrip (s : PyStr) : PyStr :=
  ((s.dropWhile isPySpace).reverse.dropWhile isPySpace).reverse

/-- `process_answer` from `main.py`:
`answer.strip().lower().replace('ё', 'е')`. -/
def process_answer (s : PyStr) : PyStr :=
  ((pyStrip s).map pyLowerCp).map foldYo

/-- The combined per-code-point action of `lower` then the `ё` fold. -/
def lowerFold (n : Nat) : Nat := foldYo (pyLowerCp n)

theorem process_answer_eq_map (s : PyStr) :
    process_answer s = (pyStrip s).map lowerFold := by
  simp [process_answer, List.map_map, lowerFold, Function.comp]

theorem lowerFold_idem (n : Nat) : lowerFold (lowerFold n) = lowerFold n := by
  simp only [lowerFold, pyLowerCp, foldYo]
  split_ifs <;> omega

theorem isPySpace_lowerFold (n : Nat) : isPySpace (lowerFold n) = isPySpace n := by
  simp only [lowerFold, pyLowerCp, foldYo, isPySpace]
  split_ifs <;> simp only [decide_eq_decide] <;> omega

theorem lowerFold_ne_yo (n : Nat) : lowerFold n ≠ 1105 := by
  simp only [lowerFold, pyLowerCp, foldYo]
  split_ifs <;> omega

theorem dropWhile_self (p : α → Bool) (l : List α) :
    (l.dropWhile p).dropWhile p = l.dropWhile p := by
  induction l with
  | nil => rfl
  | cons c t ih =>
    by_cases h : p c
    · simp [List.dropWhile_cons, h, ih]
    · simp [List.dropWhile_cons, h]

theorem head_dropWhile_false (p : α → Bool) (l : List α) (x : α)
    (h : (l.dropWhile p).head? = some x) : p x = false := by
  induction l with
  | nil => simp [List.dropWhile] at h
  | cons c t ih =>
    by_cases hc : p c
    · simp [List.dropWhile_cons, hc] at h
      exact ih h
    · simp [List.dropWhile_cons, hc] at h
      subst h
      simp [hc]

theorem dropWhile_eq_self_of_head (p : α → Bool) (l : List α)
    (h : ∀ x, l.head? = some x → p x = false) : l.dropWhile p = l := by
  cases l with
  | nil => rfl
  | cons c t =>
    have := h c rfl
    simp [List.dropWhile_cons, this]

theorem dropWhile_map_of_pres (p : α → Bool) (f : α → α)
    (hf : ∀ x, p (f x) = p x) (l : List α) :
    (l.map f).dropWhile p = (l.dropWhile p).map f := by
  induction l with
  | nil => rfl
  | cons c t ih =>
    by_cases hc : p c
    · simp [List.dropWhile_cons, hc, hf, ih]
    · simp [List.dropWhile_cons, hc, hf]

/-- `dropWhile` yields a suffix of its argument. -/
theorem dropWhile_suffix_aux (p : α → Bool) (l : List α) :
    ∃ u, u ++ l.dropWhile p = l := by
  induction l with
  | nil => exact ⟨[], rfl⟩
  | cons c t ih =>
    by_cases hc : p c
    · obtain ⟨u, hu⟩ := ih
      exact ⟨c :: u, by simp [List.dropWhile_cons, hc, hu]⟩
    · exact ⟨[], by simp [List.dropWhile_cons, hc]⟩

theorem head_of_prefix (l u : List α) (x : α) (hne : u ≠ [])
    (hpre : ∃ t, u ++ t = l) (h : l.head? = some x) : u.head? = some x := by
  obtain ⟨t, ht⟩ := hpre
  cases u with
  | nil => exact absurd rfl hne
  | cons c cs =>
    subst ht
    simpa using h

theorem pyStrip_idem (s : PyStr) : pyStrip (pyStrip s) = pyStrip s := by
  unfold pyStrip
  set a := s.dropWhile isPySpace with ha
  set b := a.reverse.dropWhile isPySpace with hb
  -- the head of `b.reverse` is the head of `a` (or `b` is empty), and the
  -- head of `a` is not whitespace, so the outer strips are the identity
  have hdrop1 : b.reverse.dropWhile isPySpace = b.reverse := by
    apply dropWhile_eq_self_of_head
    intro x hx
    have hbne : b.reverse ≠ [] := by
      intro hnil
      rw [hnil] at hx
      simp at hx
    -- b is a suffix of a.reverse, so b.reverse is a prefix of a
    obtain ⟨u, hu⟩ := dropWhile_suffix_aux isPySpace a.reverse
    rw [← hb] at hu
    have hpre : ∃ t, b.reverse ++ t = a := by
      refine ⟨u.reverse, ?_⟩
      have := congrArg List.reverse hu
      simpa using this
    have hahead : a.head? = some x := by
      obtain ⟨t, ht⟩ := hpre
      cases hbr : b.reverse with
      | nil => exact absurd hbr hbne
      | cons c cs =>
        rw [hbr] at ht hx
        rw [← ht]
        simpa using hx
    exact head_dropWhile_false isPySpace s x (ha ▸ hahead)
  rw [hdrop1, List.reverse_reverse, hb, dropWhile_self]

theorem pyStrip_map_lowerFold (s : PyStr) :
    pyStrip (s.map lowerFold) = (pyStrip s).map lowerFold := by
  unfold pyStrip
  rw [dropWhile_map_of_pres isPySpace lowerFold isPySpace_lowerFold,
      ← List.map_reverse,
      dropWhile_map_of_pres isPySpace lowerFold isPySpace_lowerFold,
      List.map_reverse]

theorem process_answer_idem (s : PyStr) :
    process_answer (process_answer s) = process_answer s := by
  rw [process_answer_eq_map, process_answer_eq_map, pyStrip_map_lowerFold,
      pyStrip_idem, List.map_map]
  apply List.map_congr_left
  intro x _
  exact lowerFold_idem x

theorem process_answer_no_yo (s : PyStr) : 1105 ∉ process_answer s := by
  rw [process_answer_eq_map]
  intro hmem
  obtain ⟨x, _, hx⟩ := List.mem_map.mp hmem
  exact lowerFold_ne_yo x hx

/-! ## Data model: vocabulary records, `WTItem`, the tutor state -/

/-- The value stored under the `learning_date` key of a record: a string
(`YYYY-MM-DD`, or `''` after a reset), or the float `nan` that pandas
loads for a blank CSV cell. -/
inductive LDVal where
  | nanv : LDVal
  | strv : PyStr → LDVal
deriving DecidableEq, Repr

/-- One vocabulary record (a dict over the five column-name keys from
`constants`).  A field is `none` when the key is absent or maps to `None`;
the two cases are indistinguishable through `.get`, the only read the
source performs. -/
structure Rec where
  word : Option PyStr
  transcription : Option PyStr
  translation : Option PyStr
  success_number : Option Int
  learning_date : Option LDVal
deriving DecidableEq, Repr

/-- An entry of `self.vocabulary`: `none` models the empty dict `{}`
(falsy), `some r` a non-empty record dict. -/
abbrev Entry := Option Rec

/-- The mutable state of a `WordsTutor`: the working list of record dicts
and the mirrored `vocabulary_frame` rows (same five columns; row labels
are positions, as for a frame freshly loaded from CSV). -/
structure TutorState where
  vocabulary : List Entry
  frame : List Entry
deriving DecidableEq, Repr

/-- Session configuration: the `max_success_number` threshold, the
`COMING_BACK_TIME` constant (comeback threshold in days; `constants.py` is
not under `src/`, so per the spec it is a configured constant), and
today's date as a proleptic-Gregorian ordinal. -/
structure Config where
  max_success_number : Int
  coming_back_time : Int
  todayOrd : Int
deriving DecidableEq, Repr

/-- `WTItem`: the transient view of one record plus its index.  The empty
sentinel (from `WTItem()`) has every field `None`, including `index`. -/
structure WTItem where
  index : Option Nat
  word : Option PyStr
  transcription : Option PyStr
  translation : Option PyStr
  success_number : Option Int
  learning_date : Option LDVal
deriving DecidableEq, Repr

/-- The empty sentinel `WTItem()`. -/
def WTItem.empty : WTItem := ⟨none, none, none, none, none, none⟩

/-- `WTItem(vocabulary, index)` on a non-empty record dict. -/
def WTItem.ofRec (index : Nat) (r : Rec) : WTItem :=
  ⟨some index, r.word, r.transcription, r.translation,
    r.success_number, r.learning_date⟩

/-- Python exception kinds that the source can raise or catch. -/
inductive PyErr where
  | indexError | keyError | typeError | valueError
  | attributeError | permissionError
deriving DecidableEq, Repr

/-- `True` for the kinds in the `except (IndexError, KeyError, TypeError,
ValueError)` clause of `WordsTutor.run`. -/
def isCaughtErr : PyErr → Bool
  | .indexError | .keyError | .typeError | .valueError => true
  | _ => false

/-- Observable output of the session (`print` calls), by message kind. -/
inductive Event where
  | comebackNotice (word : Option PyStr) (ld : Option LDVal)
  | startMsg
  | showWord (word : Option PyStr)
  | bonusSuccesses (word : Option PyStr) (n : Int)
  | skipNotice (word : Option PyStr)
  | rightMsg (tr : Option PyStr)
  | wrongMsg (answers : List PyStr) (tr : Option PyStr)
  | successes (n : Int)
  | errorMsg (e : PyErr)
  | resultSummary (learned : Nat) (total : Nat)
  | saved
deriving DecidableEq, Repr

/-! ## Date handling (`datetime.date`) -/

def isLeap (y : Nat) : Bool :=
  y % 4 = 0 && (y % 100 ≠ 0 || y % 400 = 0)

def daysInMonth (y m : Nat) : Nat :=
  if m = 2 then (if isLeap y then 29 else 28)
  else if m = 4 ∨ m = 6 ∨ m = 9 ∨ m = 11 then 30
  else 31

def daysBeforeMonth (y : Nat) : Nat → Nat
  | 0 => 0
  | m + 1 => if m = 0 then 0 else daysBeforeMonth y m + daysInMonth y m

/-- Proleptic-Gregorian ordinal of a valid `date(y, m, d)`
(`date(1, 1, 1)` has ordinal 1, as in CPython's `datetime`). -/
def dateOrdinal (y m d : Nat) : Nat :=
  365 * (y - 1) + (y - 1) / 4 - (y - 1) / 100 + (y - 1) / 400
    + daysBeforeMonth y m + d

/-- The `date(year=…, month=…, day=…)` constructor: range validation, then
the ordinal; `none` models the `ValueError` it raises. -/
def mkDateOrdinal (y m d : Int) : Option Nat :=
  if 1 ≤ y ∧ y ≤ 9999 ∧ 1 ≤ m ∧ m ≤ 12 ∧ 1 ≤ d
      ∧ d ≤ (daysInMonth y.toNat m.toNat : Int) then
    some (dateOrdinal y.toNat m.toNat d.toNat)
  else none

/-! ## String-to-value helpers used by `get_item` -/

/-- `str.split(sep)` for a one-character separator: keeps empty pieces and
always yields at least one piece. -/
def splitOn (sep : Nat) : PyStr → List PyStr
  | [] => [[]]
  | c :: rest =>
    let r := splitOn sep rest
    if c = sep then [] :: r
    else
      match r with
      | [] => [[c]]
      | h :: t => (c :: h) :: t

/-- Value of a non-empty all-digit string. -/
def digitsVal : PyStr → Option Int
  | [] => none
  | [c] => if 48 ≤ c ∧ c ≤ 57 then some ((c : Int) - 48) else none
  | c :: rest =>
    if 48 ≤ c ∧ c ≤ 57 then
      match digitsVal rest with
      | some v => some (((c : Int) - 48) * (10 ^ rest.length) + v)
      | none => none
    else none

/-- `int(s)` on a string: optional surrounding whitespace, optional sign,
then decimal digits; `none` models the `ValueError`. -/
def pyInt (s : PyStr) : Option Int :=
  match pyStrip s with
  | 43 :: rest => digitsVal rest
  | 45 :: rest => (digitsVal rest).map (fun v => -v)
  | t => digitsVal t

/-- Code points of `None`, the `str()` image of Python `None`. -/
def noneStr : PyStr := [78, 111, 110, 101]

/-- Code points of `nan`, the `str()` image of `float('nan')`. -/
def nanStr : PyStr := [110, 97, 110]

/-- `str(item.learning_date)`. -/
def ldToStr : Option LDVal → PyStr
  | none => noneStr
  | some .nanv => nanStr
  | some (.strv s) => s

/-- The guard `str(item.learning_date) not in ('', 'None', 'nan')` of
`get_item`, negated: `true` means the comeback check is skipped. -/
def skipLd (t : PyStr) : Bool :=
  t = [] || t = noneStr || t = nanStr

/-- `date(year=int(p[0]), month=int(p[1]), day=int(p[2]))` applied to
`learning_date.split('-')`, with Python's left-to-right evaluation:
`int` failures are `ValueError`s, a missing piece is an `IndexError`,
and an out-of-range date is a `ValueError`. -/
def parseLearningDate (s : PyStr) : Except PyErr Nat :=
  let parts := splitOn 45 s
  match pyInt (parts.headD []) with
  | none => .error .valueError
  | some y =>
    match parts.get? 1 with
    | none => .error .indexError
    | some p1 =>
      match pyInt p1 with
      | none => .error .valueError
      | some m =>
        match parts.get? 2 with
        | none => .error .indexError
        | some p2 =>
          match pyInt p2 with
          | none => .error .valueError
          | some d =>
            match mkDateOrdinal y m d with
            | none => .error .valueError
            | some o => .ok o

/-! ## `WordsTutor`: store operations -/

/-- Write `item.learning_date` and `item.success_number` into the dict at
position `i`, creating the keys if the dict was empty. -/
def setEntryFields (e : Entry) (sn : Option Int) (ld : Option LDVal) : Entry :=
  match e with
  | none => some ⟨none, none, none, sn, ld⟩
  | some r => some { r with success_number := sn, learning_date := ld }

/-- `WordsTutor.__update_item_in_vocabulary`: both fields of the record at
`item.index` are written together.  `vocabulary[None]` is a `TypeError`,
an out-of-range index an `IndexError`. -/
def updateItemInVocabulary (st : TutorState) (item : WTItem) :
    Except PyErr TutorState :=
  match item.index with
  | none => .error .typeError
  | some i =>
    match st.vocabulary.get? i with
    | none => .error .indexError
    | some e =>
      .ok { st with vocabulary :=
        st.vocabulary.set i (setEntryFields e item.success_number item.learning_date) }

/-- `WordsTutor.__update_item_in_frame`: both cells of row `item.index`
are written together via `.loc`.  A `None` label raises (`KeyError`); a
fresh integer label would enlarge the frame (row labels are positions
here, so for the in-bounds accesses the session performs this is a
cell update). -/
def updateItemInFrame (st : TutorState) (item : WTItem) :
    Except PyErr TutorState :=
  match item.index with
  | none => .error .keyError
  | some i =>
    if i < st.frame.length then
      .ok { st with frame :=
        st.frame.set i (setEntryFields (st.frame.getD i none) item.success_number item.learning_date) }
    else
      .ok { st with frame :=
        st.frame ++ [setEntryFields none item.success_number item.learning_date] }

/-- The comeback-reset policy inside `get_item` (lines 228-244): parse a
set `learning_date`, and when it lies more than `COMING_BACK_TIME` days in
the past, print the notice, clear the date, zero the counter and write the
record back into both structures. -/
def comebackCheck (cfg : Config) (st : TutorState) (item : WTItem) :
    Except PyErr (WTItem × TutorState × List Event) :=
  if skipLd (ldToStr item.learning_date) then .ok (item, st, [])
  else
    match item.learning_date with
    | some (.strv s) =>
      match parseLearningDate s with
      | .error e => .error e
      | .ok o =>
        if cfg.todayOrd - (o : Int) > cfg.coming_back_time then
          match updateItemInVocabulary st { item with
              learning_date := some (.strv []), success_number := some 0 } with
          | .error e => .error e
          | .ok st2 =>
            match updateItemInFrame st2 { item with
                learning_date := some (.strv []), success_number := some 0 } with
            | .error e => .error e
            | .ok st3 =>
              .ok ({ item with
                  learning_date := some (.strv []), success_number := some 0 },
                st3, [.comebackNotice item.word item.learning_date])
        else .ok (item, st, [])
    -- `.split('-')` on `None` or on a float: `AttributeError`
    -- (unreachable: those values stringify into the skip set)
    | _ => .error .attributeError

/-- Lines 245-248 of `get_item`: `None < int` is a `TypeError`; a counter
below the threshold yields the item, otherwise the empty sentinel. -/
def finishItem (cfg : Config) (r : WTItem × TutorState × List Event) :
    Except PyErr (WTItem × TutorState × List Event) :=
  match r.1.success_number with
  | none => .error .typeError
  | some n =>
    if n < cfg.max_success_number then .ok r
    else .ok (WTItem.empty, r.2.1, r.2.2)

/-- `WordsTutor.get_item`, also returning the updated state and the
printed notices. -/
def WordsTutor.get_item (cfg : Config) (st : TutorState) (index : Nat) :
    Except PyErr (WTItem × TutorState × List Event) :=
  match st.vocabulary.get? index with
  | none => .error .indexError
  | some none => .ok (WTItem.empty, st, [])
  | some (some r) =>
    match comebackCheck cfg st (WTItem.ofRec index r) with
    | .error e => .error e
    | .ok out => finishItem cfg out

/-- The learned-words count of `print_result`: rows of the frame whose
`success_number` is `>= max_success_number` (a missing value compares
false). -/
def learnedCount (cfg : Config) (st : TutorState) : Nat :=
  (st.frame.filter fun e =>
    match e with
    | some r =>
      match r.success_number with
      | some n => decide (cfg.max_success_number ≤ n)
      | none => false
    | none => false).length

/-! ## The drill loop of `WordsTutor.run` -/

/-- State carried across loop iterations: the tutor state, the rollback
slot `old_item` (`none` models Python `None`), the retry flag, and the
still-unconsumed random draws and stdin lines. -/
structure LoopSt where
  st : TutorState
  old_item : Option WTItem
  is_last_wrong : Bool
  idxs : List Nat
  inputs : List PyStr
deriving DecidableEq, Repr

/-- Result of grading one (possibly re-prompted) answer, lines 316-333. -/
structure GradeRes where
  st : TutorState
  item : WTItem
  is_last_wrong : Bool
  graduated : Bool
  ev : List Event
deriving DecidableEq, Repr

/-- Lines 316-333: compare the normalized answer with the accepted
translations, adjust `success_number`, persist via
`__update_item_in_frame`; `graduated` records that the `continue`
branch was taken. -/
def gradeAnswer (cfg : Config) (st : TutorState) (item : WTItem)
    (rights : List PyStr) (answer : PyStr) : Except PyErr GradeRes :=
  if answer ∈ rights then
    match item.success_number with
    | none => .error .typeError
    | some n =>
      match updateItemInFrame st { item with success_number := some (n + 1) } with
      | .error e => .error e
      | .ok st2 =>
        if cfg.max_success_number ≤ n + 1 then
          .ok ⟨st2, { item with success_number := some (n + 1) }, false, true,
            [.rightMsg item.transcription, .skipNotice item.word]⟩
        else
          .ok ⟨st2, { item with success_number := some (n + 1) }, false, false,
            [.rightMsg item.transcription]⟩
  else
    match item.success_number with
    | none => .error .typeError
    | some n =>
      -- `-1`, and one more `-1` when the *normalized* answer is empty
      match updateItemInFrame st { item with
          success_number := some (if answer = [] then n - 2 else n - 1) } with
      | .error e => .error e
      | .ok st2 =>
        .ok ⟨st2, { item with
            success_number := some (if answer = [] then n - 2 else n - 1) },
          true, false, [.wrongMsg rights item.transcription]⟩

/-- Result of the bonus-correction branch, lines 297-308. -/
structure BonusRes where
  st : TutorState
  old_item : Option WTItem
  ev : List Event
deriving DecidableEq, Repr

/-- Lines 297-308: `old_item.success_number += 2` (attribute access on
`None` is an `AttributeError`, `None + 2` a `TypeError`), persist to the
frame, and on graduation print the skip notice and drop the reference. -/
def bonusBranch (cfg : Config) (st : TutorState) (old : Option WTItem) :
    Except PyErr BonusRes :=
  match old with
  | none => .error .attributeError
  | some o =>
    match o.success_number with
    | none => .error .typeError
    | some n =>
      match updateItemInFrame st { o with success_number := some (n + 2) } with
      | .error e => .error e
      | .ok st2 =>
        if cfg.max_success_number ≤ n + 2 then
          .ok ⟨st2, none, [.bonusSuccesses o.word (n + 2), .skipNotice o.word]⟩
        else
          .ok ⟨st2, some { o with success_number := some (n + 2) },
            [.bonusSuccesses o.word (n + 2)]⟩

/-- Outcome of one iteration of the `while True` body. -/
inductive StepRes where
  | next (s : LoopSt) (ev : List Event)
  | quitLoop (s : LoopSt) (ev : List Event)
  | caught (e : PyErr) (s : LoopSt) (ev : List Event)
  | uncaught (e : PyErr) (s : LoopSt) (ev : List Event)
  | starve
deriving DecidableEq, Repr

/-- Route a raised exception through the `except (IndexError, KeyError,
TypeError, ValueError)` clause: print it and break, or propagate. -/
def errRes (e : PyErr) (s : LoopSt) (ev : List Event) : StepRes :=
  if isCaughtErr e then .caught e s (ev ++ [.errorMsg e])
  else .uncaught e s ev

/-- Python truthiness of `item.word`. -/
def wordTruthy : Option PyStr → Bool
  | none => false
  | some w => decide (w ≠ [])

/-- Lines 316-335: grade the answer; on graduation `continue`, otherwise
print the counter and re-fetch the current index into `old_item`. -/
def finishTurn (cfg : Config) (st : TutorState) (oldB : Option WTItem)
    (index : Nat) (item : WTItem) (rights : List PyStr) (answer : PyStr)
    (idxs2 : List Nat) (ins2 : List PyStr) (ev : List Event) : StepRes :=
  match gradeAnswer cfg st item rights answer with
  | .error e => errRes e ⟨st, oldB, decide (answer ∉ rights), idxs2, ins2⟩ ev
  | .ok g =>
    if g.graduated then .next ⟨g.st, oldB, false, idxs2, ins2⟩ (ev ++ g.ev)
    else
      match WordsTutor.get_item cfg g.st index with
      | .error e => errRes e ⟨g.st, oldB, g.is_last_wrong, idxs2, ins2⟩
          (ev ++ g.ev ++ [.successes (g.item.success_number.getD 0)])
      | .ok (item2, st3, ev3) =>
        .next ⟨st3, some item2, g.is_last_wrong, idxs2, ins2⟩
          ((ev ++ g.ev ++ [.successes (g.item.success_number.getD 0)]) ++ ev3)

/-- One iteration of the `while True` body of `WordsTutor.run`
(lines 282-339), wrapped in its `try`/`except`. -/
def loopStep (cfg : Config) (s : LoopSt) : StepRes :=
  -- randint(0, size - 1) raises ValueError on an empty vocabulary
  if s.st.vocabulary.length = 0 then errRes .valueError s []
  else
    match s.idxs with
    | [] => .starve
    | index :: idxs2 =>
      match WordsTutor.get_item cfg s.st index with
      | .error e => errRes e ⟨s.st, s.old_item, s.is_last_wrong, idxs2, s.inputs⟩ []
      | .ok (item, st1, ev1) =>
        if wordTruthy item.word then
          match item.translation with
          -- `None.split(',')`: AttributeError, not in the except clause
          | none => errRes .attributeError
              ⟨st1, s.old_item, s.is_last_wrong, idxs2, s.inputs⟩ ev1
          | some tr =>
            match s.inputs with
            | [] => .starve
            | raw1 :: ins1 =>
              if process_answer raw1 = quitTok then
                .quitLoop ⟨st1, s.old_item, s.is_last_wrong, idxs2, ins1⟩
                  (ev1 ++ [.showWord item.word])
              else if process_answer raw1 = plusTok ∧ s.is_last_wrong = true then
                match bonusBranch cfg st1 s.old_item with
                | .error e =>
                  errRes e ⟨st1, s.old_item, s.is_last_wrong, idxs2, ins1⟩
                    (ev1 ++ [.showWord item.word])
                | .ok b =>
                  match ins1 with
                  | [] => .starve
                  | raw2 :: ins2 =>
                    if process_answer raw2 = quitTok then
                      .quitLoop ⟨b.st, b.old_item, s.is_last_wrong, idxs2, ins2⟩
                        ((ev1 ++ [.showWord item.word]) ++ b.ev ++ [.showWord item.word])
                    else
                      finishTurn cfg b.st b.old_item index item
                        ((splitOn 44 tr).map process_answer) (process_answer raw2)
                        idxs2 ins2
                        ((ev1 ++ [.showWord item.word]) ++ b.ev ++ [.showWord item.word])
              else
                finishTurn cfg st1 s.old_item index item
                  ((splitOn 44 tr).map process_answer) (process_answer raw1)
                  idxs2 ins1 (ev1 ++ [.showWord item.word])
        else .next ⟨st1, s.old_item, s.is_last_wrong, idxs2, s.inputs⟩ ev1

/-- How the loop ended. -/
inductive LoopExit where
  | quit
  | caughtE (e : PyErr)
  | uncaughtE (e : PyErr)
  | starved
deriving DecidableEq, Repr

/-- Accumulated result of running the loop. -/
structure LoopOut where
  st : TutorState
  ev : List Event
  exit : LoopExit
deriving DecidableEq, Repr

/-- Iterate `loopStep` (fuel bounds the number of iterations; running out
of fuel or of modelled input is `starved`, the still-blocked session). -/
def loopRun (cfg : Config) : Nat → LoopSt → LoopOut
  | 0, s => ⟨s.st, [], .starved⟩
  | fuel + 1, s =>
    match loopStep cfg s with
    | .next s2 ev =>
      let r := loopRun cfg fuel s2
      ⟨r.st, ev ++ r.ev, r.exit⟩
    | .quitLoop s2 ev => ⟨s2.st, ev, .quit⟩
    | .caught e s2 ev => ⟨s2.st, ev, .caughtE e⟩
    | .uncaught e s2 ev => ⟨s2.st, ev, .uncaughtE e⟩
    | .starve => ⟨s.st, [], .starved⟩

/-- Result of a whole `run()` call. -/
structure RunOut where
  ev : List Event
  st : TutorState
  exit : LoopExit
  /-- exception escaping `run` itself (possible: the `get_item(index=0)`
  on line 279 sits *outside* the `try`, and `AttributeError` is not in
  the except clause) -/
  crashed : Option PyErr
deriving DecidableEq, Repr

/-- Lines 341-342: after the loop ends, print the `learned/total`
summary and flush; a loop left by an uncaught exception (or one still
blocked on input) never reaches this finalization. -/
def finalizeRun (cfg : Config) (evPre : List Event) (r : LoopOut) : RunOut :=
  match r.exit with
  | .uncaughtE e => ⟨evPre ++ r.ev, r.st, r.exit, some e⟩
  | .starved => ⟨evPre ++ r.ev, r.st, r.exit, none⟩
  | _ =>
    ⟨(evPre ++ r.ev)
      ++ [.resultSummary (learnedCount cfg r.st) r.st.vocabulary.length, .saved],
     r.st, r.exit, none⟩

/-- `WordsTutor.run` (lines 277-342): prime `old_item` with
`get_item(index=0)` (*outside* the `try`: an exception there escapes
`run` with no finalization), loop, then finalize.  The successful flush
is abstracted as the `saved` event here; `flushOutcome` models
`save_vocabulary`'s retry loop itself. -/
def WordsTutor.run (cfg : Config) (fuel : Nat) (st0 : TutorState)
    (idxs : List Nat) (inputs : List PyStr) : RunOut :=
  match WordsTutor.get_item cfg st0 0 with
  | .error e => ⟨[], st0, .starved, some e⟩
  | .ok (item0, st1, ev0) =>
    finalizeRun cfg (ev0 ++ [.startMsg])
      (loopRun cfg fuel ⟨st1, some item0, false, idxs, inputs⟩)

/-! ## `save_vocabulary`: the flush-retry loop -/

/-- Outcome of the `while True` retry loop of `save_vocabulary`. -/
inductive FlushRes where
  | success
  | uncaughtPerm
  | retrying
deriving DecidableEq, Repr

/-- `save_vocabulary` (lines 258-275) against a sink whose lock state at
the `k`-th `to_csv` call is `locked k`: the guarded write retries after an
operator prompt on `PermissionError`, but on success the `else` branch
writes the file a *second* time outside any `try` before breaking. -/
def flushOutcome (locked : Nat → Bool) : Nat → Nat → FlushRes
  | 0, _ => .retrying
  | fuel + 1, k =>
    if locked k then flushOutcome locked fuel (k + 1)
    else if locked (k + 1) then .uncaughtPerm
    else .success

/-! ## Extractors and list lemmas -/

instance : Inhabited LoopSt := ⟨⟨⟨[], []⟩, none, false, [], []⟩⟩

/-- The successor state of a `next` step. -/
def stepNextD (r : StepRes) (d : LoopSt) : LoopSt :=
  match r with
  | .next s _ => s
  | _ => d

/-- The events printed during one step. -/
def stepEvents : StepRes → List Event
  | .next _ ev => ev
  | .quitLoop _ ev => ev
  | .caught _ _ ev => ev
  | .uncaught _ _ ev => ev
  | .starve => []

/-- The `word` field of a successful `get_item` result. -/
def gotWord : Except PyErr (WTItem × TutorState × List Event) → Option PyStr
  | .ok (it, _, _) => it.word
  | .error _ => none

/-- `success_number` of the record stored at position `i`. -/
def entrySuccessAt (l : List Entry) (i : Nat) : Option Int :=
  match l.get? i with
  | some (some r) => r.success_number
  | _ => none

/-- `learning_date` of the record stored at position `i` (outer `some`
means the position holds a non-empty record). -/
def entryLdAt (l : List Entry) (i : Nat) : Option (Option LDVal) :=
  match l.get? i with
  | some (some r) => some r.learning_date
  | _ => none

theorem lget_lt {l : List α} {i : Nat} {x : α} (h : l.get? i = some x) :
    i < l.length := by
  induction l generalizing i with
  | nil => simp at h
  | cons c t ih =>
    cases i with
    | zero => simp
    | succ j =>
      simp only [List.get?] at h
      simpa using Nat.succ_lt_succ (ih h)

theorem lget_set_self {l : List α} {i : Nat} (a : α) (h : i < l.length) :
    (l.set i a).get? i = some a := by
  induction l generalizing i with
  | nil => simp at h
  | cons c t ih =>
    cases i with
    | zero => rfl
    | succ j =>
      simp only [List.set, List.get?]
      exact ih (by simpa using h)

/-! ## `get_item` structure lemmas -/

/-- Any non-sentinel item that `get_item` returns has a numeric
`success_number` strictly below the threshold (the `item.success_number <
self.max_success_number` gate on line 245). -/
theorem get_item_ok_real {cfg : Config} {st : TutorState} {i : Nat}
    {it : WTItem} {st' : TutorState} {ev : List Event} {w : PyStr}
    (h : WordsTutor.get_item cfg st i = .ok (it, st', ev))
    (hw : it.word = some w) :
    ∃ n, it.success_number = some n ∧ n < cfg.max_success_number := by
  unfold WordsTutor.get_item at h
  split at h
  · simp at h
  · simp only [Except.ok.injEq, Prod.mk.injEq] at h
    rw [← h.1] at hw
    simp [WTItem.empty] at hw
  · split at h
    · simp at h
    · rename_i out hc
      unfold finishItem at h
      split at h
      · simp at h
      · rename_i n hsn
        by_cases hlt : n < cfg.max_success_number
        · rw [if_pos hlt] at h
          simp only [Except.ok.injEq] at h
          rw [h] at hsn
          exact ⟨n, hsn, hlt⟩
        · rw [if_neg hlt] at h
          simp only [Except.ok.injEq, Prod.mk.injEq] at h
          rw [← h.1] at hw
          simp [WTItem.empty] at hw

/-- Both fields of `setEntryFields` land as given. -/
theorem setEntryFields_fields (e : Entry) (sn : Option Int) (ld : Option LDVal) :
    ∃ r', setEntryFields e sn ld = some r' ∧
      r'.success_number = sn ∧ r'.learning_date = ld := by
  cases e with
  | none => exact ⟨⟨none, none, none, sn, ld⟩, rfl, rfl, rfl⟩
  | some r => exact ⟨{ r with success_number := sn, learning_date := ld }, rfl, rfl, rfl⟩

/-! ## Claim C7 -/

/-- **C7**: for every in-bounds index, `get_item` never returns a
non-empty `WTItem` (word field present) whose `success_number` is at or
above `max_success_number`: any such returned item has a numeric counter
strictly below the threshold. -/
theorem C7_no_graduated_item_returned {cfg : Config} {st : TutorState}
    {i : Nat} {it : WTItem} {st' : TutorState} {ev : List Event} {w : PyStr}
    (h : WordsTutor.get_item cfg st i = .ok (it, st', ev))
    (hw : it.word = some w) :
    ∃ n, it.success_number = some n ∧ n < cfg.max_success_number :=
  get_item_ok_real h hw

/-- Shared concrete session: one word `dog` with translation `d`,
`success_number` 2, blank learning date, threshold 3. -/
def cfgB : Config := ⟨3, 30, 1000⟩

def recB : Rec := ⟨some [100, 111, 103], some [], some [100], some 2, some (.strv [])⟩

def stB : TutorState := ⟨[some recB], [some recB]⟩

/-- Loop state about to grade the correct answer `d` on `dog`. -/
def sB : LoopSt := ⟨stB, some (WTItem.ofRec 0 recB), false, [0], [[100]]⟩

theorem C7_witness :
    ∃ n, (WTItem.ofRec 0 recB).success_number = some n ∧
      n < cfgB.max_success_number :=
  @C7_no_graduated_item_returned cfgB stB 0 (WTItem.ofRec 0 recB) stB []
    [100, 111, 103] (by rfl) (by rfl)

/-! ## Claims C1 and C2: the drill loop persists only to the frame -/

/-- **C1** (code bug): with threshold 3 and `dog` at `success_number` 2,
a correct answer prints the graduation notice (`will be skipped`), yet
the very next `get_item` on index 0 still returns the word (not the empty
sentinel): the loop wrote the new counter only into `vocabulary_frame`,
never into `vocabulary`, which `get_item` reads. -/
theorem C1_graduation_notice_but_word_still_served :
    Event.skipNotice (some [100, 111, 103]) ∈ stepEvents (loopStep cfgB sB) ∧
    gotWord (WordsTutor.get_item cfgB (stepNextD (loopStep cfgB sB) default).st 0)
      = some [100, 111, 103] := by decide

/-- **C2** (code bug): after that same graded answer the two mirrored
structures disagree at index 0 — the frame holds the updated counter 3,
the working collection still holds 2 — so the drill loop's persistence
step does not keep them in lockstep. -/
theorem C2_frame_and_vocabulary_diverge :
    entrySuccessAt (stepNextD (loopStep cfgB sB) default).st.frame 0 = some 3 ∧
    entrySuccessAt (stepNextD (loopStep cfgB sB) default).st.vocabulary 0 = some 2 := by
  decide

/-! ## Claim C4: the comeback reset -/

/-- **C4**: a record whose `learning_date` is a set, parsable date lying
more than `COMING_BACK_TIME` days in the past is reset by the next
`get_item` on its index — counter to 0, date cleared, both structures
written, notice printed — and a second `get_item` performs no further
reset (state unchanged, no notice). -/
theorem get_item_eq_of_entry {cfg : Config} {st : TutorState} {i : Nat}
    {r : Rec} (hv : st.vocabulary.get? i = some (some r)) :
    WordsTutor.get_item cfg st i =
      match comebackCheck cfg st (WTItem.ofRec i r) with
      | .error e => .error e
      | .ok out => finishItem cfg out := by
  unfold WordsTutor.get_item
  rw [hv]

theorem entrySuccessAt_of_get {l : List Entry} {i : Nat} {r : Rec}
    (h : l.get? i = some (some r)) : entrySuccessAt l i = r.success_number := by
  unfold entrySuccessAt
  rw [h]

theorem entryLdAt_of_get {l : List Entry} {i : Nat} {r : Rec}
    (h : l.get? i = some (some r)) : entryLdAt l i = some r.learning_date := by
  unfold entryLdAt
  rw [h]

/-- The record as rewritten by the comeback reset. -/
def resetRec (r : Rec) : Rec :=
  ⟨r.word, r.transcription, r.translation, some 0, some (.strv [])⟩

/-- The `WTItem` as mutated by the comeback reset. -/
def resetItem (i : Nat) (r : Rec) : WTItem :=
  ⟨some i, r.word, r.transcription, r.translation, some 0, some (.strv [])⟩

/-- The tutor state after the comeback reset wrote through both
structures. -/
def resetState (st : TutorState) (i : Nat) (r : Rec) : TutorState :=
  ⟨st.vocabulary.set i (some (resetRec r)),
   st.frame.set i (setEntryFields (st.frame.getD i none) (some 0) (some (.strv [])))⟩

theorem C4_comeback_resets_exactly_once
    {cfg : Config} {st : TutorState} {i : Nat} {r : Rec} {s : PyStr} {o : Nat}
    (hv : st.vocabulary.get? i = some (some r))
    (hld : r.learning_date = some (.strv s))
    (hskip : skipLd s = false)
    (hparse : parseLearningDate s = .ok o)
    (hdiff : cfg.todayOrd - (o : Int) > cfg.coming_back_time)
    (hfl : i < st.frame.length) :
    ∃ it st2,
      WordsTutor.get_item cfg st i =
        .ok (it, st2, [.comebackNotice r.word (some (.strv s))]) ∧
      entrySuccessAt st2.vocabulary i = some 0 ∧
      entryLdAt st2.vocabulary i = some (some (.strv [])) ∧
      entrySuccessAt st2.frame i = some 0 ∧
      entryLdAt st2.frame i = some (some (.strv [])) ∧
      ∃ it2, WordsTutor.get_item cfg st2 i = .ok (it2, st2, []) := by
  have hi : i < st.vocabulary.length := lget_lt hv
  obtain ⟨rf, hrf, hrfs, hrfl⟩ :=
    setEntryFields_fields (st.frame.getD i none) (some 0) (some (.strv []))
  have hcc : comebackCheck cfg st (WTItem.ofRec i r) =
      .ok (resetItem i r, resetState st i r,
        [.comebackNotice r.word (some (.strv s))]) := by
    unfold comebackCheck updateItemInVocabulary updateItemInFrame
    simp only [WTItem.ofRec, hld, ldToStr, hskip, hparse, if_pos hdiff,
      Bool.false_eq_true, if_false, hv]
    simp [setEntryFields, hfl, resetItem, resetState, resetRec]
  have hvoc2 : (resetState st i r).vocabulary.get? i = some (some (resetRec r)) := by
    unfold resetState
    exact lget_set_self _ hi
  have hfr2 : (resetState st i r).frame.get? i = some (some rf) := by
    unfold resetState
    rw [← hrf]
    exact lget_set_self _ hfl
  refine ⟨if (0 : Int) < cfg.max_success_number then resetItem i r else WTItem.empty,
    resetState st i r, ?_, ?_, ?_, ?_, ?_, ?_⟩
  · rw [get_item_eq_of_entry hv, hcc]
    by_cases h0 : (0 : Int) < cfg.max_success_number
    · simp [finishItem, resetItem, h0]
    · simp [finishItem, resetItem, WTItem.empty, h0]
  · rw [entrySuccessAt_of_get hvoc2]
    rfl
  · rw [entryLdAt_of_get hvoc2]
    rfl
  · rw [entrySuccessAt_of_get hfr2]
    exact hrfs
  · rw [entryLdAt_of_get hfr2]
    rw [hrfl]
  · have hcc2 : comebackCheck cfg (resetState st i r) (WTItem.ofRec i (resetRec r)) =
        .ok (WTItem.ofRec i (resetRec r), resetState st i r, []) := by
      unfold comebackCheck
      simp [WTItem.ofRec, resetRec, ldToStr, skipLd]
    refine ⟨if (0 : Int) < cfg.max_success_number then WTItem.ofRec i (resetRec r)
      else WTItem.empty, ?_⟩
    rw [get_item_eq_of_entry hvoc2, hcc2]
    by_cases h0 : (0 : Int) < cfg.max_success_number
    · simp [finishItem, WTItem.ofRec, resetRec, h0]
    · simp [finishItem, WTItem.ofRec, resetRec, WTItem.empty, h0]

/-- Concrete comeback scenario: word `a`, translation `b`,
`learning_date` `2023-05-07` (ordinal 738647), today at ordinal 738700,
threshold 30 days. -/
def ld2023 : PyStr := [50, 48, 50, 51, 45, 48, 53, 45, 48, 55]

def cfgD : Config := ⟨3, 30, 738700⟩

def recD : Rec := ⟨some [97], some [], some [98], some 5, some (.strv ld2023)⟩

def stD : TutorState := ⟨[some recD], [some recD]⟩

theorem C4_witness :
    ∃ it st2,
      WordsTutor.get_item cfgD stD 0 =
        .ok (it, st2, [.comebackNotice recD.word (some (.strv ld2023))]) ∧
      entrySuccessAt st2.vocabulary 0 = some 0 ∧
      entryLdAt st2.vocabulary 0 = some (some (.strv [])) ∧
      entrySuccessAt st2.frame 0 = some 0 ∧
      entryLdAt st2.frame 0 = some (some (.strv [])) ∧
      ∃ it2, WordsTutor.get_item cfgD st2 0 = .ok (it2, st2, []) :=
  @C4_comeback_resets_exactly_once cfgD stD 0 recD ld2023 738647
    rfl rfl (by decide) (by rfl) (by decide) (by decide)

/-! ## Claim C8: answer normalization -/

/-- Code points the normalizer cannot tell apart: they strip alike and
lower-and-fold to the same code point. -/
def SameNorm (a b : Nat) : Prop :=
  isPySpace a = isPySpace b ∧ lowerFold a = lowerFold b

theorem forall2_dropWhile {l1 l2 : PyStr} (h : List.Forall₂ SameNorm l1 l2) :
    List.Forall₂ SameNorm (l1.dropWhile isPySpace) (l2.dropWhile isPySpace) := by
  induction h with
  | nil => exact List.Forall₂.nil
  | cons hab ht ih =>
    rename_i a b t1 t2
    by_cases hsp : isPySpace a = true
    · rw [List.dropWhile_cons, List.dropWhile_cons, if_pos hsp,
        if_pos (hab.1.symm.trans hsp)]
      exact ih
    · rw [List.dropWhile_cons, List.dropWhile_cons, if_neg hsp,
        if_neg (fun hb => hsp (hab.1.trans hb))]
      exact List.Forall₂.cons hab ht

theorem forall2_map_lowerFold {l1 l2 : PyStr} (h : List.Forall₂ SameNorm l1 l2) :
    l1.map lowerFold = l2.map lowerFold := by
  induction h with
  | nil => rfl
  | cons hab ht ih =>
    simp only [List.map_cons, ih, hab.2]

theorem pyStrip_sameNorm {l1 l2 : PyStr} (h : List.Forall₂ SameNorm l1 l2) :
    List.Forall₂ SameNorm (pyStrip l1) (pyStrip l2) := by
  unfold pyStrip
  exact List.rel_reverse (forall2_dropWhile (List.rel_reverse (forall2_dropWhile h)))

/-- Strings that agree up to `SameNorm` code points normalize equally. -/
theorem process_answer_sameNorm {l1 l2 : PyStr}
    (h : List.Forall₂ SameNorm l1 l2) :
    process_answer l1 = process_answer l2 := by
  rw [process_answer_eq_map, process_answer_eq_map]
  exact forall2_map_lowerFold (pyStrip_sameNorm h)

theorem sameNorm_refl (l : PyStr) : List.Forall₂ SameNorm l l :=
  List.forall₂_same.2 (fun x _ => ⟨rfl, rfl⟩)

/-- `ё` (1105) is replaced by `е` (1077) at every position: in any
context the input normalizes exactly as if the `ё` were an `е`. -/
theorem process_answer_yo_to_ye (u v : PyStr) :
    process_answer (u ++ 1105 :: v) = process_answer (u ++ 1077 :: v) :=
  process_answer_sameNorm
    (List.rel_append (sameNorm_refl u)
      (List.Forall₂.cons (by constructor <;> decide) (sameNorm_refl v)))

/-- **C8**: `process_answer` is idempotent, sends `Cat ` / `cat` / `CAT`
to `cat`, and replaces `ё` (code point 1105) by `е` (1077) at every
position: any occurrence of `ё`, in any context, normalizes exactly as
the same string with `е` there, and no `ё` survives in the output. -/
theorem C8_process_answer_idempotent :
    (∀ s : PyStr, process_answer (process_answer s) = process_answer s) ∧
    process_answer [67, 97, 116, 32] = [99, 97, 116] ∧
    process_answer [99, 97, 116] = [99, 97, 116] ∧
    process_answer [67, 65, 84] = [99, 97, 116] ∧
    (∀ u v : PyStr,
      process_answer (u ++ 1105 :: v) = process_answer (u ++ 1077 :: v)) ∧
    (∀ s : PyStr, 1105 ∉ process_answer s) :=
  ⟨process_answer_idem, by decide, by decide, by decide,
    process_answer_yo_to_ye, process_answer_no_yo⟩

/-! ## Claim C6: the wrong-answer penalty -/

/-- C6 as stated by the spec: the extra `-1` applies exactly when the
*raw* answer was the empty string. -/
def C6ClaimProp : Prop :=
  ∀ (cfg : Config) (st : TutorState) (item : WTItem) (rights : List PyStr)
    (raw : PyStr) (n : Int) (g : GradeRes),
    item.success_number = some n →
    process_answer raw ∉ rights →
    gradeAnswer cfg st item rights (process_answer raw) = .ok g →
    g.is_last_wrong = true ∧
    g.item.success_number = some (n - 1 - (if raw = [] then 1 else 0))

/-- Grading result of the whitespace-only answer `" "` on `dog` at
counter 2 against accepted translations `["c"]`. -/
def gC6 : GradeRes :=
  ⟨⟨[some recB], [some ⟨some [100, 111, 103], some [], some [100], some 0, some (.strv [])⟩]⟩,
   ⟨some 0, some [100, 111, 103], some [], some [100], some 0, some (.strv [])⟩,
   true, false, [.wrongMsg [[99]] (some [])]⟩

/-- **C6** (counterexample): the code tests the *processed* answer, not
the raw one — the raw answer `" "` (one space) normalizes to `""` and
receives the double penalty (2 → 0), while the claim (raw `" "` ≠ `""`)
predicts a single decrement (2 → 1). -/
theorem C6_counterexample : ¬ C6ClaimProp := by
  intro h
  have hc := h cfgB stB (WTItem.ofRec 0 recB) [[99]] [32] 2 gC6
    rfl (by decide) (by rfl)
  exact absurd hc.2 (by decide)

/-- **C6** (amended): a non-matching answer sets the retry flag and
decrements the counter by 1, with an additional 1 when the *normalized*
answer is the empty string (so whitespace-only raw input is also doubly
penalized), and the result is persisted to the frame. -/
theorem C6_wrong_answer_penalty {cfg : Config} {st : TutorState}
    {item : WTItem} {rights : List PyStr} {answer : PyStr} {n : Int}
    {g : GradeRes}
    (hn : item.success_number = some n)
    (hnm : answer ∉ rights)
    (hg : gradeAnswer cfg st item rights answer = .ok g) :
    g.is_last_wrong = true ∧
    g.item.success_number = some (n - 1 - (if answer = [] then 1 else 0)) ∧
    ∃ st2, updateItemInFrame st { item with
        success_number := some (n - 1 - (if answer = [] then 1 else 0)) } = .ok st2 ∧
      g.st = st2 := by
  unfold gradeAnswer at hg
  rw [if_neg hnm] at hg
  split at hg
  · rename_i hnone
    rw [hn] at hnone
    simp at hnone
  · rename_i m hm
    rw [hn] at hm
    injection hm with hm
    subst hm
    by_cases ha : answer = []
    · have e : n - 1 - (1 : Int) = n - 2 := by ring
      simp only [ha, if_true, e]
      simp only [ha, if_true] at hg
      split at hg
      · simp at hg
      · rename_i st2 hu
        simp only [Except.ok.injEq] at hg
        rw [← hg]
        exact ⟨rfl, rfl, st2, hu, rfl⟩
    · have e : n - 1 - (0 : Int) = n - 1 := by ring
      simp only [ha, if_false, e]
      simp only [ha, if_false] at hg
      split at hg
      · simp at hg
      · rename_i st2 hu
        simp only [Except.ok.injEq] at hg
        rw [← hg]
        exact ⟨rfl, rfl, st2, hu, rfl⟩

theorem C6_witness :
    (gC6.is_last_wrong = true ∧
      gC6.item.success_number = some (2 - 1 - (if ([] : PyStr) = [] then 1 else 0)) ∧
      ∃ st2, updateItemInFrame stB { WTItem.ofRec 0 recB with
          success_number := some (2 - 1 - (if ([] : PyStr) = [] then 1 else 0)) } = .ok st2 ∧
        gC6.st = st2) :=
  @C6_wrong_answer_penalty cfgB stB (WTItem.ofRec 0 recB) [[99]] [] 2 gC6
    rfl (by decide) (by rfl)

/-! ## Claim C9: the flush-retry loop -/

/-- C9 as stated by the spec: whenever the lock is eventually released,
`save_vocabulary` succeeds and never surfaces an unrecoverable
`PermissionError`. -/
def C9ClaimProp : Prop :=
  ∀ locked : Nat → Bool,
    (∃ N, ∀ k, N ≤ k → locked k = false) →
    (∃ fuel, flushOutcome locked fuel 0 = .success) ∧
    (∀ fuel, flushOutcome locked fuel 0 ≠ .uncaughtPerm)

/-- Lock sequence that is free for the guarded write, grabbed again for
the unguarded rewrite, and free ever after. -/
def lockedC9 : Nat → Bool := fun k => decide (k = 1)

/-- **C9** (counterexample): with `lockedC9` the lock is released from
call 2 on (eventually released), yet `save_vocabulary` raises an
uncaught `PermissionError`: the `else` branch repeats the `to_csv` call
*outside* the `try`, and that second write hits the re-taken lock. -/
theorem C9_counterexample : ¬ C9ClaimProp := by
  intro h
  have hc := h lockedC9 ⟨2, by
    intro k hk
    simp only [lockedC9, decide_eq_false_iff_not]
    omega⟩
  exact hc.2 1 (by decide)

theorem flush_aux (n : Nat) (locked : Nat → Bool) (j : Nat)
    (hbefore : ∀ k, j ≤ k → k < j + n → locked k = true)
    (hafter : ∀ k, j + n ≤ k → locked k = false) :
    flushOutcome locked (n + 1) j = .success := by
  induction n generalizing j with
  | zero =>
    have h0 : locked j = false := hafter j (by omega)
    have h1 : locked (j + 1) = false := hafter (j + 1) (by omega)
    simp [flushOutcome, h0, h1]
  | succ m ih =>
    have h0 : locked j = true := hbefore j (by omega) (by omega)
    have hstep : flushOutcome locked (m + 1 + 1) j = flushOutcome locked (m + 1) (j + 1) := by
      simp [flushOutcome, h0]
    rw [hstep]
    exact ih (j + 1)
      (fun k hk1 hk2 => hbefore k (by omega) (by omega))
      (fun k hk => hafter k (by omega))

/-- **C9** (amended): the flush succeeds for every lock sequence in
which the lock, held for the first `N` write attempts, is released from
attempt `N` on and stays released — in particular it retries (prompting
the operator) rather than failing while the guarded write keeps hitting
the lock.  (As stated, the claim is false: if the lock is re-taken
between the successful guarded write and the immediately following
unguarded rewrite, a `PermissionError` escapes — `C9_counterexample`.) -/
theorem C9_flush_succeeds_once_released {locked : Nat → Bool} {N : Nat}
    (hbefore : ∀ k, k < N → locked k = true)
    (hafter : ∀ k, N ≤ k → locked k = false) :
    flushOutcome locked (N + 1) 0 = .success :=
  flush_aux N locked 0
    (fun k _ hk2 => hbefore k (by omega))
    (fun k hk => hafter k (by omega))

theorem C9_witness :
    flushOutcome (fun k => decide (k < 2)) (2 + 1) 0 = .success :=
  @C9_flush_succeeds_once_released (fun k => decide (k < 2)) 2
    (fun k hk => by simp; omega)
    (fun k hk => by simp; omega)

/-! ## Claim C5: the bonus-correction sub-flow -/

theorem get_item_ok_inbounds {cfg : Config} {st : TutorState} {i : Nat}
    {x : WTItem × TutorState × List Event}
    (h : WordsTutor.get_item cfg st i = .ok x) : i < st.vocabulary.length := by
  unfold WordsTutor.get_item at h
  split at h
  · simp at h
  · rename_i hv
    exact lget_lt hv
  · rename_i r hv
    exact lget_lt hv

/-- **C5**: entering a turn with `is_last_wrong` set and a first answer
normalizing to `+` runs the bonus branch: the previous item's counter is
raised by exactly 2 and persisted to the frame at its index, the bonus
successes line is printed, graduation (if reached) prints the skip notice
and drops the rollback reference, and the engine re-prompts — the second
answer goes through the `-1` quit check and otherwise is the one
graded for the current word. -/
theorem C5_bonus_correction
    {cfg : Config} {s : LoopSt} {index : Nat} {idxs2 : List Nat}
    {item : WTItem} {st1 : TutorState} {ev1 : List Event}
    {tr w raw1 raw2 : PyStr} {ins2 : List PyStr}
    {o : WTItem} {n : Int} {oi : Nat}
    (hidx : s.idxs = index :: idxs2)
    (hget : WordsTutor.get_item cfg s.st index = .ok (item, st1, ev1))
    (hw : item.word = some w) (hwne : w ≠ [])
    (htr : item.translation = some tr)
    (hins : s.inputs = raw1 :: raw2 :: ins2)
    (hplus : process_answer raw1 = plusTok)
    (hilw : s.is_last_wrong = true)
    (hold : s.old_item = some o)
    (hon : o.success_number = some n)
    (hoi : o.index = some oi)
    (hofl : oi < st1.frame.length) :
    ∃ stB oldB evB,
      bonusBranch cfg st1 (some o) = .ok ⟨stB, oldB, evB⟩ ∧
      entrySuccessAt stB.frame oi = some (n + 2) ∧
      Event.bonusSuccesses o.word (n + 2) ∈ evB ∧
      (cfg.max_success_number ≤ n + 2 →
        oldB = none ∧ Event.skipNotice o.word ∈ evB) ∧
      (¬ cfg.max_success_number ≤ n + 2 →
        oldB = some { o with success_number := some (n + 2) }) ∧
      (process_answer raw2 = quitTok →
        ∃ ev, loopStep cfg s = .quitLoop ⟨stB, oldB, true, idxs2, ins2⟩ ev) ∧
      (process_answer raw2 ≠ quitTok →
        ∃ ev, loopStep cfg s =
          finishTurn cfg stB oldB index item ((splitOn 44 tr).map process_answer)
            (process_answer raw2) idxs2 ins2 ev) := by
  have hlen : ¬ s.st.vocabulary.length = 0 := by
    have := get_item_ok_inbounds hget
    omega
  set stB0 : TutorState := ⟨st1.vocabulary, st1.frame.set oi (setEntryFields (st1.frame.getD oi none) (some (n + 2)) o.learning_date)⟩ with hstB0
  set oldB0 : Option WTItem :=
    if cfg.max_success_number ≤ n + 2 then none
    else some { o with success_number := some (n + 2) } with holdB0
  set evB0 : List Event :=
    if cfg.max_success_number ≤ n + 2 then
      [.bonusSuccesses o.word (n + 2), .skipNotice o.word]
    else [.bonusSuccesses o.word (n + 2)] with hevB0
  have hb : bonusBranch cfg st1 (some o) = .ok ⟨stB0, oldB0, evB0⟩ := by
    unfold bonusBranch updateItemInFrame
    simp only [hon, hoi, if_pos hofl]
    by_cases hth : cfg.max_success_number ≤ n + 2
    · simp [hth, holdB0, hevB0, hstB0, hoi]
    · simp [hth, holdB0, hevB0, hstB0, hoi]
  have hne1 : ¬ (plusTok = quitTok) := by decide
  have hstep : loopStep cfg s =
      (if process_answer raw2 = quitTok then
        .quitLoop ⟨stB0, oldB0, true, idxs2, ins2⟩
          (((ev1 ++ [Event.showWord item.word]) ++ evB0) ++ [Event.showWord item.word])
      else
        finishTurn cfg stB0 oldB0 index item ((splitOn 44 tr).map process_answer)
          (process_answer raw2) idxs2 ins2
          (((ev1 ++ [Event.showWord item.word]) ++ evB0) ++ [Event.showWord item.word])) := by
    unfold loopStep
    rw [if_neg hlen]
    simp only [hidx, hget, hw, htr, hins, hplus, hilw, hold, hb, wordTruthy]
    simp [hne1, hwne]
  obtain ⟨rf, hrf, hrfs, _⟩ :=
    setEntryFields_fields (st1.frame.getD oi none) (some (n + 2)) o.learning_date
  have hfr : stB0.frame.get? oi = some (some rf) := by
    rw [hstB0, ← hrf]
    exact lget_set_self _ hofl
  refine ⟨stB0, oldB0, evB0, hb, ?_, ?_, ?_, ?_, ?_, ?_⟩
  · rw [entrySuccessAt_of_get hfr]
    exact hrfs
  · by_cases hth : cfg.max_success_number ≤ n + 2 <;> simp [hevB0, hth]
  · intro hth
    refine ⟨by simp [holdB0, hth], by simp [hevB0, hth]⟩
  · intro hth
    simp [holdB0, hth]
  · intro hq
    rw [hstep, if_pos hq]
    exact ⟨_, rfl⟩
  · intro hq
    rw [hstep, if_neg hq]
    exact ⟨_, rfl⟩

/-! ## Claim C3: termination always reaches the finalization -/

theorem errRes_caught {e : PyErr} {s : LoopSt} {ev : List Event}
    {e2 : PyErr} {s2 : LoopSt} {ev2 : List Event}
    (h : errRes e s ev = .caught e2 s2 ev2) : isCaughtErr e2 = true := by
  unfold errRes at h
  split at h
  · rename_i hc
    injection h with h1 h2 h3
    rw [← h1]
    exact hc
  · simp at h

theorem errRes_uncaught {e : PyErr} {s : LoopSt} {ev : List Event}
    {e2 : PyErr} {s2 : LoopSt} {ev2 : List Event}
    (h : errRes e s ev = .uncaught e2 s2 ev2) : isCaughtErr e2 = false := by
  unfold errRes at h
  split at h
  · simp at h
  · rename_i hc
    injection h with h1 h2 h3
    rw [← h1]
    simpa using hc

theorem finishTurn_caught {cfg : Config} {st : TutorState} {oldB : Option WTItem}
    {index : Nat} {item : WTItem} {rights : List PyStr} {answer : PyStr}
    {idxs2 : List Nat} {ins2 : List PyStr} {ev : List Event}
    {e2 : PyErr} {s2 : LoopSt} {ev2 : List Event}
    (h : finishTurn cfg st oldB index item rights answer idxs2 ins2 ev
      = .caught e2 s2 ev2) : isCaughtErr e2 = true := by
  unfold finishTurn at h
  split at h
  · exact errRes_caught h
  · split at h
    · simp at h
    · split at h
      · exact errRes_caught h
      · simp at h

theorem finishTurn_uncaught {cfg : Config} {st : TutorState} {oldB : Option WTItem}
    {index : Nat} {item : WTItem} {rights : List PyStr} {answer : PyStr}
    {idxs2 : List Nat} {ins2 : List PyStr} {ev : List Event}
    {e2 : PyErr} {s2 : LoopSt} {ev2 : List Event}
    (h : finishTurn cfg st oldB index item rights answer idxs2 ins2 ev
      = .uncaught e2 s2 ev2) : isCaughtErr e2 = false := by
  unfold finishTurn at h
  split at h
  · exact errRes_uncaught h
  · split at h
    · simp at h
    · split at h
      · exact errRes_uncaught h
      · simp at h

theorem loopStep_caught {cfg : Config} {s : LoopSt}
    {e2 : PyErr} {s2 : LoopSt} {ev2 : List Event}
    (h : loopStep cfg s = .caught e2 s2 ev2) : isCaughtErr e2 = true := by
  unfold loopStep at h
  repeat' split at h
  all_goals
    first
    | exact errRes_caught h
    | exact finishTurn_caught h
    | simp at h

theorem loopStep_uncaught {cfg : Config} {s : LoopSt}
    {e2 : PyErr} {s2 : LoopSt} {ev2 : List Event}
    (h : loopStep cfg s = .uncaught e2 s2 ev2) : isCaughtErr e2 = false := by
  unfold loopStep at h
  repeat' split at h
  all_goals
    first
    | exact errRes_uncaught h
    | exact finishTurn_uncaught h
    | simp at h

theorem loopRun_exit_classify (cfg : Config) (fuel : Nat) (s : LoopSt) :
    (∀ e, (loopRun cfg fuel s).exit = .caughtE e → isCaughtErr e = true) ∧
    (∀ e, (loopRun cfg fuel s).exit = .uncaughtE e → isCaughtErr e = false) := by
  induction fuel generalizing s with
  | zero =>
    constructor <;> intro e h <;> simp [loopRun] at h
  | succ m ih =>
    cases hs : loopStep cfg s with
    | next s2 ev =>
      have hrw : loopRun cfg (m + 1) s =
          ⟨(loopRun cfg m s2).st, ev ++ (loopRun cfg m s2).ev,
            (loopRun cfg m s2).exit⟩ := by
        simp only [loopRun]
        rw [hs]
      rw [hrw]
      exact ih s2
    | quitLoop s2 ev =>
      have hrw : loopRun cfg (m + 1) s = ⟨s2.st, ev, .quit⟩ := by
        simp only [loopRun]
        rw [hs]
      rw [hrw]
      constructor <;> intro e h <;> simp at h
    | caught e0 s2 ev =>
      have hrw : loopRun cfg (m + 1) s = ⟨s2.st, ev, .caughtE e0⟩ := by
        simp only [loopRun]
        rw [hs]
      rw [hrw]
      constructor <;> intro e h
      · simp only [LoopExit.caughtE.injEq] at h
        rw [← h]
        exact loopStep_caught hs
      · simp at h
    | uncaught e0 s2 ev =>
      have hrw : loopRun cfg (m + 1) s = ⟨s2.st, ev, .uncaughtE e0⟩ := by
        simp only [loopRun]
        rw [hs]
      rw [hrw]
      constructor <;> intro e h
      · simp at h
      · simp only [LoopExit.uncaughtE.injEq] at h
        rw [← h]
        exact loopStep_uncaught hs
    | starve =>
      have hrw : loopRun cfg (m + 1) s = ⟨s.st, [], .starved⟩ := by
        simp only [loopRun]
        rw [hs]
      rw [hrw]
      constructor <;> intro e h <;> simp at h

/-- **C3**: whenever the drill loop terminates — via the `-1` quit token
at any prompt, or via a data-integrity error (any exit recorded as
caught is one of IndexError/KeyError/TypeError/ValueError, the kinds the
`except` clause names) — the run's output ends with the learned/total
summary followed by the flush; such errors never skip the finalization. -/
theorem C3_termination_always_finalizes (cfg : Config) (fuel : Nat)
    (st0 : TutorState) (idxs : List Nat) (inputs : List PyStr) :
    (∀ e, (WordsTutor.run cfg fuel st0 idxs inputs).exit = .caughtE e →
      isCaughtErr e = true) ∧
    ((WordsTutor.run cfg fuel st0 idxs inputs).exit = .quit ∨
      (∃ e, (WordsTutor.run cfg fuel st0 idxs inputs).exit = .caughtE e) →
      ∃ pre, (WordsTutor.run cfg fuel st0 idxs inputs).ev = pre ++
        [.resultSummary
          (learnedCount cfg (WordsTutor.run cfg fuel st0 idxs inputs).st)
          (WordsTutor.run cfg fuel st0 idxs inputs).st.vocabulary.length,
         .saved]) := by
  cases hg : WordsTutor.get_item cfg st0 0 with
  | error e =>
    have hrr : WordsTutor.run cfg fuel st0 idxs inputs = ⟨[], st0, .starved, some e⟩ := by
      unfold WordsTutor.run
      rw [hg]
    rw [hrr]
    constructor
    · intro e2 h
      simp at h
    · intro h
      rcases h with h | ⟨e2, h⟩ <;> simp at h
  | ok x =>
    obtain ⟨item0, st1, ev0⟩ := x
    have hrr : WordsTutor.run cfg fuel st0 idxs inputs =
        finalizeRun cfg (ev0 ++ [.startMsg])
          (loopRun cfg fuel ⟨st1, some item0, false, idxs, inputs⟩) := by
      unfold WordsTutor.run
      rw [hg]
    have hex : ∀ r evPre, (finalizeRun cfg evPre r).exit = r.exit := by
      intro r evPre
      unfold finalizeRun
      cases r.exit <;> rfl
    rw [hrr]
    constructor
    · intro e2 h
      rw [hex] at h
      exact (loopRun_exit_classify cfg fuel _).1 e2 h
    · intro hq
      rcases hq with hq | ⟨e2, hq⟩
      · rw [hex] at hq
        have hfe : finalizeRun cfg (ev0 ++ [.startMsg])
            (loopRun cfg fuel ⟨st1, some item0, false, idxs, inputs⟩) =
            ⟨((ev0 ++ [.startMsg]) ++ (loopRun cfg fuel ⟨st1, some item0, false, idxs, inputs⟩).ev)
              ++ [.resultSummary
                (learnedCount cfg (loopRun cfg fuel ⟨st1, some item0, false, idxs, inputs⟩).st)
                (loopRun cfg fuel ⟨st1, some item0, false, idxs, inputs⟩).st.vocabulary.length,
                .saved],
             (loopRun cfg fuel ⟨st1, some item0, false, idxs, inputs⟩).st,
             (loopRun cfg fuel ⟨st1, some item0, false, idxs, inputs⟩).exit, none⟩ := by
          unfold finalizeRun
          rw [hq]
        rw [hfe]
        exact ⟨_, rfl⟩
      · rw [hex] at hq
        have hfe : finalizeRun cfg (ev0 ++ [.startMsg])
            (loopRun cfg fuel ⟨st1, some item0, false, idxs, inputs⟩) =
            ⟨((ev0 ++ [.startMsg]) ++ (loopRun cfg fuel ⟨st1, some item0, false, idxs, inputs⟩).ev)
              ++ [.resultSummary
                (learnedCount cfg (loopRun cfg fuel ⟨st1, some item0, false, idxs, inputs⟩).st)
                (loopRun cfg fuel ⟨st1, some item0, false, idxs, inputs⟩).st.vocabulary.length,
                .saved],
             (loopRun cfg fuel ⟨st1, some item0, false, idxs, inputs⟩).st,
             (loopRun cfg fuel ⟨st1, some item0, false, idxs, inputs⟩).exit, none⟩ := by
          unfold finalizeRun
          rw [hq]
        rw [hfe]
        exact ⟨_, rfl⟩

theorem C3_witness :
    ∃ pre, (WordsTutor.run cfgB 1 stB [0] [[45, 49]]).ev = pre ++
      [.resultSummary
        (learnedCount cfgB (WordsTutor.run cfgB 1 stB [0] [[45, 49]]).st)
        (WordsTutor.run cfgB 1 stB [0] [[45, 49]]).st.vocabulary.length,
       .saved] :=
  (C3_termination_always_finalizes cfgB 1 stB [0] [[45, 49]]).2 (Or.inl (by decide))

/-! ## Claim C10: the bonus branch never dereferences `None` -/

theorem errRes_ne_next {e : PyErr} {s : LoopSt} {ev : List Event}
    {s2 : LoopSt} {ev2 : List Event} : errRes e s ev ≠ .next s2 ev2 := by
  unfold errRes
  split <;> simp

theorem updateItemInFrame_vocab {st : TutorState} {it : WTItem} {st2 : TutorState}
    (h : updateItemInFrame st it = .ok st2) : st2.vocabulary = st.vocabulary := by
  unfold updateItemInFrame at h
  split at h
  · simp at h
  · split at h <;>
      (simp only [Except.ok.injEq] at h; rw [← h])

theorem gradeAnswer_vocab {cfg : Config} {st : TutorState} {item : WTItem}
    {rights : List PyStr} {answer : PyStr} {g : GradeRes}
    (h : gradeAnswer cfg st item rights answer = .ok g) :
    g.st.vocabulary = st.vocabulary := by
  unfold gradeAnswer at h
  split at h
  · split at h
    · simp at h
    · split at h
      · simp at h
      · rename_i st2 hu
        split at h <;>
          (simp only [Except.ok.injEq] at h; rw [← h]; exact updateItemInFrame_vocab hu)
  · split at h
    · simp at h
    · split at h
      · simp at h
      · rename_i st2 hu
        simp only [Except.ok.injEq] at h
        rw [← h]
        exact updateItemInFrame_vocab hu

theorem bonusBranch_vocab {cfg : Config} {st : TutorState} {old : Option WTItem}
    {b : BonusRes} (h : bonusBranch cfg st old = .ok b) :
    b.st.vocabulary = st.vocabulary := by
  unfold bonusBranch at h
  split at h
  · simp at h
  · split at h
    · simp at h
    · split at h
      · simp at h
      · rename_i st2 hu
        split at h <;>
          (simp only [Except.ok.injEq] at h; rw [← h]; exact updateItemInFrame_vocab hu)

/-- A record whose stringified `learning_date` is in the skip set passes
through the comeback check untouched. -/
theorem comebackCheck_skip {cfg : Config} {st : TutorState} {it0 : WTItem}
    (hsk : skipLd (ldToStr it0.learning_date) = true) :
    comebackCheck cfg st it0 = .ok (it0, st, []) := by
  unfold comebackCheck
  rw [if_pos hsk]

/-- A record whose date parses but is not yet stale passes through the
comeback check untouched. -/
theorem comebackCheck_stable {cfg : Config} {st : TutorState} {it0 : WTItem}
    {s : PyStr} {o : Nat}
    (hld : it0.learning_date = some (.strv s))
    (hp : parseLearningDate s = .ok o)
    (hd : ¬ cfg.todayOrd - (o : Int) > cfg.coming_back_time) :
    comebackCheck cfg st it0 = .ok (it0, st, []) := by
  unfold comebackCheck
  by_cases hsk : skipLd (ldToStr it0.learning_date)
  · rw [if_pos hsk]
  · rw [if_neg hsk]
    simp only [hld, hp, if_neg hd]

/-- Case analysis of a successful comeback check. -/
theorem comebackCheck_ok_cases {cfg : Config} {st : TutorState} {it0 : WTItem}
    {out : WTItem × TutorState × List Event}
    (h : comebackCheck cfg st it0 = .ok out) :
    (out = (it0, st, []) ∧ skipLd (ldToStr it0.learning_date) = true) ∨
    (out = (it0, st, []) ∧ ∃ s o, it0.learning_date = some (.strv s) ∧
      parseLearningDate s = .ok o ∧
      ¬ cfg.todayOrd - (o : Int) > cfg.coming_back_time) ∨
    (∃ s stv, it0.learning_date = some (.strv s) ∧
      out.1 = { it0 with learning_date := some (.strv []), success_number := some 0 } ∧
      updateItemInVocabulary st out.1 = .ok stv ∧
      updateItemInFrame stv out.1 = .ok out.2.1 ∧
      out.2.2 = [.comebackNotice it0.word it0.learning_date]) := by
  unfold comebackCheck at h
  split at h
  · rename_i hsk
    simp only [Except.ok.injEq] at h
    exact Or.inl ⟨h.symm, hsk⟩
  · split at h
    · rename_i s hld
      split at h
      · simp at h
      · rename_i o hp
        split at h
        · rename_i hd
          split at h
          · simp at h
          · rename_i stv hv
            split at h
            · simp at h
            · rename_i st3 hf
              simp only [Except.ok.injEq] at h
              subst h
              exact Or.inr (Or.inr ⟨s, stv, hld, rfl, hv, hf, rfl⟩)
        · rename_i hd
          simp only [Except.ok.injEq] at h
          exact Or.inr (Or.inl ⟨h.symm, s, o, hld, hp, hd⟩)
    · exact absurd h (by simp)

theorem updateItemInVocabulary_ok {st : TutorState} {it : WTItem} {i : Nat}
    {stv : TutorState} (hidx : it.index = some i)
    (h : updateItemInVocabulary st it = .ok stv) :
    ∃ e, st.vocabulary.get? i = some e ∧
      stv.vocabulary =
        st.vocabulary.set i (setEntryFields e it.success_number it.learning_date) := by
  unfold updateItemInVocabulary at h
  rw [hidx] at h
  split at h
  · simp at h
  · rename_i j heq
    injection heq with heq2
    subst heq2
    split at h
    · simp at h
    · rename_i e he
      simp only [Except.ok.injEq] at h
      exact ⟨e, he, by rw [← h]⟩

theorem finishItem_lt {cfg : Config} {it : WTItem} {st : TutorState}
    {ev : List Event} {n : Int}
    (hsn : it.success_number = some n) (hlt : n < cfg.max_success_number) :
    finishItem cfg (it, st, ev) = .ok (it, st, ev) := by
  simp [finishItem, hsn, hlt]

/-- Re-fetching the same index right after a successful fetch of a real
item returns the very same item and leaves the state untouched: the
comeback reset (if any) already happened and wrote a cleared date back,
so the second read takes the skip path. -/
theorem get_item_refetch {cfg : Config} {st : TutorState} {i : Nat}
    {it : WTItem} {st1 : TutorState} {ev : List Event} {w : PyStr}
    (h : WordsTutor.get_item cfg st i = .ok (it, st1, ev))
    (hw : it.word = some w) :
    ∀ st' : TutorState, st'.vocabulary = st1.vocabulary →
      WordsTutor.get_item cfg st' i = .ok (it, st', []) := by
  intro st' hv'
  unfold WordsTutor.get_item at h
  split at h
  · simp at h
  · simp only [Except.ok.injEq, Prod.mk.injEq] at h
    rw [← h.1] at hw
    simp [WTItem.empty] at hw
  · rename_i r hv
    split at h
    · simp at h
    · rename_i out hcc
      unfold finishItem at h
      split at h
      · simp at h
      · rename_i n hsn0
        by_cases hlt : n < cfg.max_success_number
        · rw [if_pos hlt] at h
          simp only [Except.ok.injEq] at h
          subst h
          have hsn : it.success_number = some n := hsn0
          rcases comebackCheck_ok_cases hcc with ⟨heq, hsk⟩ | ⟨heq, s, o, hld, hp, hd⟩
            | ⟨s, stv, hld, h1, h2, h3, h4⟩
          · obtain ⟨hit, hst, hev⟩ : it = WTItem.ofRec i r ∧ st1 = st ∧ ev = [] := by
              simpa [Prod.ext_iff] using heq
            have hentry : st'.vocabulary.get? i = some (some r) := by
              rw [hv', hst]
              exact hv
            rw [get_item_eq_of_entry hentry, comebackCheck_skip hsk]
            show finishItem cfg (WTItem.ofRec i r, st', []) = .ok (it, st', [])
            rw [← hit]
            exact finishItem_lt hsn hlt
          · obtain ⟨hit, hst, hev⟩ : it = WTItem.ofRec i r ∧ st1 = st ∧ ev = [] := by
              simpa [Prod.ext_iff] using heq
            have hentry : st'.vocabulary.get? i = some (some r) := by
              rw [hv', hst]
              exact hv
            rw [get_item_eq_of_entry hentry, comebackCheck_stable hld hp hd]
            show finishItem cfg (WTItem.ofRec i r, st', []) = .ok (it, st', [])
            rw [← hit]
            exact finishItem_lt hsn hlt
          · -- the reset case: the first fetch already cleared the date
            have h1' : it = resetItem i r := h1
            have h3' : updateItemInFrame stv it = .ok st1 := h3
            have hix : it.index = some i := by
              rw [h1']
              rfl
            obtain ⟨e, he, hvset⟩ := updateItemInVocabulary_ok hix h2
            have her : e = some r := by
              rw [he] at hv
              injection hv
            have hfl : i < st.vocabulary.length := lget_lt hv
            have hvset2 : st'.vocabulary = st.vocabulary.set i (some (resetRec r)) := by
              rw [hv', updateItemInFrame_vocab h3', hvset, her, h1']
              rfl
            have hentry : st'.vocabulary.get? i = some (some (resetRec r)) := by
              rw [hvset2]
              exact lget_set_self _ hfl
            rw [get_item_eq_of_entry hentry,
              comebackCheck_skip
                (show skipLd (ldToStr (WTItem.ofRec i (resetRec r)).learning_date) = true
                  from rfl)]
            show finishItem cfg (WTItem.ofRec i (resetRec r), st', []) = .ok (it, st', [])
            have hit2 : WTItem.ofRec i (resetRec r) = it := by
              rw [h1']
              rfl
            rw [hit2]
            exact finishItem_lt hsn hlt
        · rw [if_neg hlt] at h
          simp only [Except.ok.injEq, Prod.mk.injEq] at h
          rw [← h.1] at hw
          simp [WTItem.empty] at hw

theorem wordTruthy_some {ow : Option PyStr} (h : wordTruthy ow = true) :
    ∃ w, ow = some w ∧ w ≠ [] := by
  cases ow with
  | none => simp [wordTruthy] at h
  | some w => exact ⟨w, rfl, by simpa [wordTruthy] using h⟩

/-- The safety invariant of the drill loop: whenever the retry flag is
set, the rollback slot holds a real item (word present, so not the empty
sentinel, and not `None`) with a numeric counter. -/
def BonusSafe (s : LoopSt) : Prop :=
  s.is_last_wrong = true →
    ∃ o w m, s.old_item = some o ∧ o.word = some w ∧ w ≠ [] ∧
      o.success_number = some m

/-- The shared tail of a turn (grade, print, re-fetch) restores the
invariant: when it leaves the retry flag set, it has re-fetched the
current index into `old_item`, and that re-fetch returns the same real
item the turn started from. -/
theorem finishTurn_next_safe {cfg : Config} {stf : TutorState}
    {oldB : Option WTItem} {index : Nat} {item : WTItem}
    {rights : List PyStr} {answer : PyStr} {idxs2 : List Nat}
    {ins2 : List PyStr} {ev : List Event} {s2 : LoopSt} {ev2 : List Event}
    {st0 st1 : TutorState} {ev1 : List Event} {w : PyStr}
    (hfirst : WordsTutor.get_item cfg st0 index = .ok (item, st1, ev1))
    (hw : item.word = some w) (hwne : w ≠ [])
    (hvoc : stf.vocabulary = st1.vocabulary)
    (h : finishTurn cfg stf oldB index item rights answer idxs2 ins2 ev
      = .next s2 ev2) :
    BonusSafe s2 := by
  unfold finishTurn at h
  split at h
  · exact absurd h errRes_ne_next
  · rename_i g hg
    split at h
    · simp only [StepRes.next.injEq] at h
      rw [← h.1]
      intro hilw
      simp at hilw
    · split at h
      · exact absurd h errRes_ne_next
      · rename_i item2 st3 ev3 hre
        have hv2 : g.st.vocabulary = st1.vocabulary := by
          rw [gradeAnswer_vocab hg, hvoc]
        have hrf := get_item_refetch hfirst hw g.st hv2
        have he2 := hrf.symm.trans hre
        simp only [Except.ok.injEq, Prod.mk.injEq] at he2
        obtain ⟨hi2, hs3, hev3⟩ := he2
        simp only [StepRes.next.injEq] at h
        rw [← h.1]
        intro hilw2
        obtain ⟨m, hm, hmlt⟩ := get_item_ok_real hfirst hw
        exact ⟨item2, w, m, rfl, by rw [← hi2]; exact hw, hwne,
          by rw [← hi2]; exact hm⟩

/-- One loop iteration preserves the invariant. -/
theorem loopStep_next_safe {cfg : Config} {s s2 : LoopSt} {ev : List Event}
    (hInv : BonusSafe s) (hstep : loopStep cfg s = .next s2 ev) :
    BonusSafe s2 := by
  unfold loopStep at hstep
  split at hstep
  · exact absurd hstep errRes_ne_next
  · split at hstep
    · simp at hstep
    · rename_i index idxs2 hidx
      split at hstep
      · exact absurd hstep errRes_ne_next
      · rename_i item st1 ev1 hget
        split at hstep
        · rename_i hwt
          obtain ⟨w, hw, hwne⟩ := wordTruthy_some hwt
          split at hstep
          · exact absurd hstep errRes_ne_next
          · rename_i tr htr
            split at hstep
            · simp at hstep
            · rename_i raw1 ins1 hins
              split at hstep
              · simp at hstep
              · split at hstep
                · split at hstep
                  · exact absurd hstep errRes_ne_next
                  · rename_i b hb
                    split at hstep
                    · simp at hstep
                    · rename_i raw2 ins2 hins2
                      split at hstep
                      · simp at hstep
                      · exact finishTurn_next_safe hget hw hwne
                          (bonusBranch_vocab hb) hstep
                · exact finishTurn_next_safe hget hw hwne rfl hstep
        · simp only [StepRes.next.injEq] at hstep
          rw [← hstep.1]
          intro hilw
          exact hInv hilw

/-- **C10**: `BonusSafe` is an invariant of the drill loop — it holds
for the loop's initial state (`is_last_wrong` starts `False`) and is
preserved by every iteration — and under it, whenever the retry flag is
set (so the `+`-branch can be entered), `old_item` is a real item with a
numeric `success_number`: `old_item.success_number += 2` never
dereferences `None`. -/
theorem C10_bonus_old_item_always_real (cfg : Config) (s s2 : LoopSt)
    (ev : List Event) (st' : TutorState) (old' : Option WTItem)
    (idxs' : List Nat) (ins' : List PyStr)
    (hInv : BonusSafe s) (hstep : loopStep cfg s = .next s2 ev) :
    BonusSafe s2 ∧
    BonusSafe ⟨st', old', false, idxs', ins'⟩ ∧
    (s.is_last_wrong = true →
      ∃ o w m, s.old_item = some o ∧ o.word = some w ∧ w ≠ [] ∧
        o.success_number = some m) :=
  ⟨loopStep_next_safe hInv hstep, by intro hfalse; simp at hfalse, hInv⟩

/-- The loop state after the graduating correct answer of the shared
concrete session. -/
def recBdone : Rec := ⟨some [100, 111, 103], some [], some [100], some 3, some (.strv [])⟩

def s2W : LoopSt := ⟨⟨[some recB], [some recBdone]⟩, some (WTItem.ofRec 0 recB), false, [], []⟩

def evW : List Event :=
  [.showWord (some [100, 111, 103]), .rightMsg (some []),
   .skipNotice (some [100, 111, 103])]

theorem C10_witness :
    BonusSafe s2W ∧
    BonusSafe ⟨stB, none, false, [], []⟩ ∧
    (sB.is_last_wrong = true →
      ∃ o w m, sB.old_item = some o ∧ o.word = some w ∧ w ≠ [] ∧
        o.success_number = some m) :=
  C10_bonus_old_item_always_real cfgB sB s2W evW stB none [] []
    (by intro h; simp [sB] at h) (by decide)

/-- Loop state about to consume `+` (bonus correction) and then `-1`
(quit) with the retry flag set. -/
def sC5 : LoopSt := ⟨stB, some (WTItem.ofRec 0 recB), true, [0], [[43], [45, 49]]⟩

theorem C5_witness :
    ∃ s2 oldB evB,
      bonusBranch cfgB stB (some (WTItem.ofRec 0 recB)) = .ok ⟨s2, oldB, evB⟩ ∧
      entrySuccessAt s2.frame 0 = some (2 + 2) ∧
      Event.bonusSuccesses (WTItem.ofRec 0 recB).word (2 + 2) ∈ evB ∧
      (cfgB.max_success_number ≤ 2 + 2 →
        oldB = none ∧ Event.skipNotice (WTItem.ofRec 0 recB).word ∈ evB) ∧
      (¬ cfgB.max_success_number ≤ 2 + 2 →
        oldB = some { WTItem.ofRec 0 recB with success_number := some (2 + 2) }) ∧
      (process_answer [45, 49] = quitTok →
        ∃ ev, loopStep cfgB sC5 = .quitLoop ⟨s2, oldB, true, [], []⟩ ev) ∧
      (process_answer [45, 49] ≠ quitTok →
        ∃ ev, loopStep cfgB sC5 =
          finishTurn cfgB s2 oldB 0 (WTItem.ofRec 0 recB)
            ((splitOn 44 [100]).map process_answer) (process_answer [45, 49])
            [] [] ev) :=
  @C5_bonus_correction cfgB sC5 0 [] (WTItem.ofRec 0 recB) stB [] [100]
    [100, 111, 103] [43] [45, 49] [] (WTItem.ofRec 0 recB) 2 0
    rfl (by rfl) rfl (by decide) rfl rfl (by rfl) rfl rfl rfl rfl (by decide)
